import Mathlib

set_option maxHeartbeats 1000000

/-!
Shallow embedding of the core logic of `src/ZZZ_Telegram_Bot_Prototype.py`.

The bot stores its state in three SQLite tables (`users`, `raids`,
`raid_participants`); we embed the store as an explicit `DB` value threaded
through each command-logic function.  Timestamps (`last_daily`, `start_time`)
are UTC instants modelled as `Int` seconds since the epoch; the source's
`_to_aware` helper normalises every stored value to UTC before comparison, so
the integer model is exact.  `timedelta(hours=24)` is `86400` seconds.
SQLite assigns integer primary keys `1, 2, 3, ...`; we model that with the
`next_user_id` / `next_raid_id` counters.  Columns that the embedded logic
never reads (`registered_at`, `created_at`, `joined_at`, the surrogate
`raid_participants.id`) are omitted.

Each `cmd_*_logic` function in the source returns a Russian message string;
every branch returns a distinct message determined by a tag and the values
interpolated into it, so the embedding returns that tag (constructor) carrying
exactly the interpolated values, together with the updated store.
The current time `datetime.now(timezone.utc)` is injected as a `now`
parameter so the functions are pure.
-/

/-- Row of the `users` table (source lines 71–79).
`tg_id` is the Telegram id (unique), `crystals` the bonus balance
(column default 0), `last_daily` the instant of the last granted daily
bonus (nullable). -/
structure User where
  id : Nat
  tg_id : Int
  nick : Option String
  uid : Option String
  crystals : Int
  last_daily : Option Int
deriving DecidableEq, Repr

/-- Row of the `raids` table (source lines 82–90). -/
structure Raid where
  id : Nat
  boss : String
  start_time : Int
  slots : Int
  creator_id : Nat
deriving DecidableEq, Repr

/-- Row of the `raid_participants` table (source lines 93–98). -/
structure RaidParticipant where
  raid_id : Nat
  user_id : Nat
deriving DecidableEq, Repr

/-- The whole store: the three tables plus the autoincrement counters. -/
structure DB where
  users : List User
  raids : List Raid
  participants : List RaidParticipant
  next_user_id : Nat
  next_raid_id : Nat
deriving DecidableEq, Repr

/-- A freshly created database (empty tables, ids start at 1). -/
def DB.empty : DB :=
  { users := [], raids := [], participants := [], next_user_id := 1, next_raid_id := 1 }

/-- Source `get_user_by_tg` (lines 106–107):
`session.query(User).filter(User.tg_id == tg_id).first()`. -/
def get_user_by_tg (db : DB) (tg : Int) : Option User :=
  db.users.find? (fun u => u.tg_id == tg)

/-- Source `ensure_user` (lines 197–204): look the user up by Telegram id and
lazily create it when absent.  `cmd_daily_logic`, `cmd_create_raid_logic` and
`cmd_join_logic` inline exactly this lookup-or-create sequence
(`User(tg_id=tg_id, nick=...)`, `session.add`, `session.commit`). -/
def ensure_user (db : DB) (tg : Int) (nick : Option String) : User × DB :=
  match get_user_by_tg db tg with
  | some u => (u, db)
  | none =>
      let u : User :=
        { id := db.next_user_id, tg_id := tg, nick := nick, uid := none,
          crystals := 0, last_daily := none }
      (u, { db with users := db.users ++ [u], next_user_id := db.next_user_id + 1 })

/-- Commit a mutation of the ORM `User` object: the row with the same primary
key is rewritten. -/
def update_user (db : DB) (uid : Nat) (f : User → User) : DB :=
  { db with users := db.users.map (fun u => if u.id == uid then f u else u) }

/-- Outcome of `cmd_daily_logic`: `denied remaining` is the branch returning
"Ежедневный бонус уже взят. Следующий: HH:MM:SS" (the HH:MM:SS rendering of
`remaining` seconds), `granted balance` the branch returning
"Хвостик вручает тебе 50 кристаллов! Сейчас: balance кристаллов. ...". -/
inductive DailyRes where
  | denied (remaining : Int)
  | granted (balance : Int)
deriving DecidableEq, Repr

/-- Source `cmd_daily_logic` (lines 265–287).  The user is ensured, then:
if `last_daily` is set and `now - last < 24h`, return the denial carrying
`remaining = 24h - (now - last)` and mutate nothing; otherwise add 50 to
`crystals`, set `last_daily = now`, commit, and return the new balance. -/
def cmd_daily_logic (tg : Int) (now : Int) (db : DB) : DailyRes × DB :=
  let eu := ensure_user db tg none
  let user := eu.1
  let db1 := eu.2
  let grant : DailyRes × DB :=
    (DailyRes.granted (user.crystals + 50),
     update_user db1 user.id
       (fun u => { u with crystals := u.crystals + 50, last_daily := some now }))
  match user.last_daily with
  | some last =>
      if now - last < 86400 then (DailyRes.denied (86400 - (now - last)), db1)
      else grant
  | none => grant

/-- Source `cmd_create_raid_logic` (lines 289–304): ensure the user, insert a
`Raid` row with exactly the given fields (no validation of any of them),
commit, and answer with the fresh raid id. -/
def cmd_create_raid_logic (tg : Int) (boss : String) (dt : Int) (slots : Int)
    (db : DB) : Nat × DB :=
  let eu := ensure_user db tg none
  let user := eu.1
  let db1 := eu.2
  let rid := db1.next_raid_id
  (rid,
   { db1 with
       raids := db1.raids ++
         [{ id := rid, boss := boss, start_time := dt, slots := slots,
            creator_id := user.id }],
       next_raid_id := db1.next_raid_id + 1 })

/-- Outcome of `cmd_join_logic`: `notFound` = "Рейд не найден.",
`full` = "Все слоты заняты.", `alreadyJoined` = "Вы уже записаны.",
`joined` = "Вы записаны на рейд ...". -/
inductive JoinRes where
  | notFound
  | full
  | alreadyJoined
  | joined
deriving DecidableEq, Repr

/-- The `count` query of `cmd_join_logic` (source lines 319–323): number of
`raid_participants` rows with the given `raid_id`. -/
def countParticipants (db : DB) (rid : Nat) : Nat :=
  (db.participants.filter (fun p => p.raid_id == rid)).length

/-- The `exists` query of `cmd_join_logic` (source lines 326–332): is there a
`raid_participants` row with this `raid_id` and `user_id`? -/
def participantExists (db : DB) (rid uid : Nat) : Bool :=
  db.participants.any (fun p => p.raid_id == rid && p.user_id == uid)

/-- Source `cmd_join_logic` (lines 307–340).  Look the raid up by id
(`notFound` when absent, before any write); ensure the user; read the
participant count and refuse with `full` when `count >= raid.slots`; refuse
with `alreadyJoined` when the `(raid_id, user_id)` pair already exists;
otherwise insert the pair and commit. -/
def cmd_join_logic (tg : Int) (rid : Nat) (db : DB) : JoinRes × DB :=
  match db.raids.find? (fun r => r.id == rid) with
  | none => (JoinRes.notFound, db)
  | some raid =>
      let eu := ensure_user db tg none
      let user := eu.1
      let db1 := eu.2
      if raid.slots ≤ (countParticipants db1 raid.id : Int) then
        (JoinRes.full, db1)
      else if participantExists db1 raid.id user.id then
        (JoinRes.alreadyJoined, db1)
      else
        (JoinRes.joined,
         { db1 with participants :=
             db1.participants ++ [{ raid_id := raid.id, user_id := user.id }] })

/-- Zero-pad a number to two digits, as Python's `%02d` / isoformat does. -/
def pad2 (n : Nat) : String :=
  if n < 10 then "0" ++ toString n else toString n

/-- Zero-pad a year to four digits, as `datetime.isoformat` does. -/
def pad4 (n : Nat) : String :=
  if n < 10 then "000" ++ toString n
  else if n < 100 then "00" ++ toString n
  else if n < 1000 then "0" ++ toString n
  else toString n

/-- Convert a count of days since 1970-01-01 to a Gregorian `(year, month,
day)` triple (proleptic Gregorian calendar, the one `datetime` uses). -/
def civilFromDays (z0 : Int) : Int × Nat × Nat :=
  let z := z0 + 719468
  let era := z.fdiv 146097
  let doe := (z - era * 146097).toNat
  let yoe := (doe - doe / 1460 + doe / 36524 - doe / 146096) / 365
  let doy := doe - (365 * yoe + yoe / 4 - yoe / 100)
  let mp := (5 * doy + 2) / 153
  let d := doy - (153 * mp + 2) / 5 + 1
  let m := if mp < 10 then mp + 3 else mp - 9
  (era * 400 + yoe + (if m ≤ 2 then 1 else 0), m, d)

/-- Python `datetime.isoformat()` of a UTC instant with zero microseconds:
`YYYY-MM-DDTHH:MM:SS+00:00`. -/
def isoformatUTC (t : Int) : String :=
  let days := t.fdiv 86400
  let sod := (t - days * 86400).toNat
  let ymd := civilFromDays days
  pad4 ymd.1.toNat ++ "-" ++ pad2 ymd.2.1 ++ "-" ++ pad2 ymd.2.2 ++ "T" ++
    pad2 (sod / 3600) ++ ":" ++ pad2 (sod % 3600 / 60) ++ ":" ++ pad2 (sod % 60) ++
    "+00:00"

/-- One row of the export report (source lines 350–358):
id, boss, isoformat start, slots, participant count, tab-separated. -/
def export_raid_line (db : DB) (r : Raid) : String :=
  toString r.id ++ "\t" ++ r.boss ++ "\t" ++ isoformatUTC r.start_time ++ "\t" ++
    toString r.slots ++ "\t" ++ toString (countParticipants db r.id)

/-- The full export report (source line 359): header plus one line per raid,
in table order. -/
def export_report (db : DB) : String :=
  "ID\tBoss\tStart\tSlots\tParticipants\n" ++
    String.intercalate "\n" (db.raids.map (export_raid_line db))

/-- Refusal message of `cmd_export_raids_logic` (source line 345). -/
def owner_only_message : String :=
  "Только владелец может использовать эту команду."

/-- Source `cmd_export_raids_logic` (lines 343–361).  `OWNER_TG_ID` (an
environment value, 0 when unset) is passed explicitly.  The Python guard
`if OWNER_TG_ID and tg_id != OWNER_TG_ID` refuses exactly when the owner id
is nonzero and the caller differs from it; otherwise the report is built.
The session only reads, so the store is returned unchanged. -/
def cmd_export_raids_logic (owner_tg_id : Int) (tg : Int) (db : DB) :
    String × DB :=
  if owner_tg_id ≠ 0 ∧ tg ≠ owner_tg_id then (owner_only_message, db)
  else (export_report db, db)

/-- The simplified profile dict built by the enka wrappers: keys `uid`,
`nickname`, `level`, `notes` (absent keys modelled as `none`). -/
structure EnkaProfile where
  uid : String
  nickname : Option String
  level : Option Int
  notes : Option String
deriving DecidableEq, Repr

/-- Environment of `fetch_enka_profile_sync` (source lines 166–191):
whether the `enka` package imported (`HAS_ENKA`), whether an asyncio event
loop is already running, and what `_fetch_enka_showcase_async` would yield —
that wrapper catches its own exceptions and returns `None` on any failure
(source lines 161–163), so its outcome is already an `Option`. -/
structure EnkaEnv where
  has_enka : Bool
  loop_running : Bool
  showcase : Option EnkaProfile
deriving DecidableEq, Repr

/-- The mock dict returned when `enka` is not installed
(source lines 175–180). -/
def mock_profile (uid : String) : EnkaProfile :=
  { uid := uid, nickname := some ("MockPlayer_" ++ uid), level := some 42,
    notes := some "enka not installed" }

/-- Source `fetch_enka_profile_sync` (lines 166–191).  Empty uid: `None`.
`enka` missing: the mock dict.  Event loop already running: `None` (cannot
block).  Otherwise the async fetch result; every failure path inside it is
already `None`, and the outer `except Exception` turns any escaping error
into `None`, so the function is total and never raises. -/
def fetch_enka_profile_sync (env : EnkaEnv) (uid : String) : Option EnkaProfile :=
  if uid = "" then none
  else if env.has_enka = false then some (mock_profile uid)
  else if env.loop_running then none
  else env.showcase

/-!
Two-phase model of `cmd_join_logic` for the join race (§5 of the spec).
The source performs the capacity check (lines 319–324) and the insert-commit
(lines 335–337) as two separate storage operations with no transaction or
lock around the pair.  `join_check` is exactly the read phase of
`cmd_join_logic` evaluated against one snapshot of the store (for a user
that is already registered, so the lazy user upsert is a pure read), and
`join_apply` is the write phase; `cmd_join_eq_check_apply` below proves that
running the two phases back-to-back on the same store is literally
`cmd_join_logic`.  Interleaving the phases of two calls models two handler
threads whose sessions both read the committed count before either commits
its insert.
-/

/-- Decision computed by the read phase of `cmd_join_logic`: either stop with
a response, or proceed to insert the `(raid_id, user_id)` pair. -/
inductive JoinDecision where
  | stop (res : JoinRes)
  | insert (rid uid : Nat)
deriving DecidableEq, Repr

/-- Read phase of `cmd_join_logic` (source lines 310–334) for an already
registered `user`: raid lookup, capacity check, duplicate check. -/
def join_check (user : User) (rid : Nat) (db : DB) : JoinDecision :=
  match db.raids.find? (fun r => r.id == rid) with
  | none => JoinDecision.stop JoinRes.notFound
  | some raid =>
      if raid.slots ≤ (countParticipants db raid.id : Int) then
        JoinDecision.stop JoinRes.full
      else if participantExists db raid.id user.id then
        JoinDecision.stop JoinRes.alreadyJoined
      else JoinDecision.insert raid.id user.id

/-- Write phase of `cmd_join_logic` (source lines 335–337): commit the
decision against the current store. -/
def join_apply (d : JoinDecision) (db : DB) : JoinRes × DB :=
  match d with
  | JoinDecision.stop r => (r, db)
  | JoinDecision.insert rid uid =>
      (JoinRes.joined,
       { db with participants := db.participants ++ [{ raid_id := rid, user_id := uid }] })

/-- Interleaved execution of two joins: both sessions run their read phase
against the same committed store, then commit their writes in order.  This is
the schedule the spec's concurrency contract (§5) must exclude. -/
def race_join (userA userB : User) (rid : Nat) (db : DB) :
    JoinRes × JoinRes × DB :=
  let dA := join_check userA rid db
  let dB := join_check userB rid db
  let ra := join_apply dA db
  let rb := join_apply dB ra.2
  (ra.1, rb.1, rb.2)

/-!
Reminder scheduler.  Modelled from the spec: the repository contains no
reminder scheduler at all (no code computes reminder thresholds or sends
scheduled notifications); spec §4.3 specifies one, and the definitions below
follow its words.  `reminder_thresholds` is the fixed configuration
`{30, 10}` minutes; a tick at time `now` considers only raids with
`startTime > now`, and fires threshold `t` for a raid when the pair is not
yet Fired and `remaining = startTime - now` lies in the half-open window
`(t*60 - P, t*60]` seconds (equivalently `now ∈ [startTime - t*60,
startTime - t*60 + P)`); firing appends the pair to the Fired set before
delivery is attempted.
-/

/-- Modelled from the spec: the raid data the scheduler reads (id and start
time; §4.3 step 1–2). -/
structure SRaid where
  id : Nat
  start_time : Int
deriving DecidableEq, Repr

/-- Modelled from the spec: the fixed reminder thresholds `T = {30, 10}`
minutes before start (§4.3, §6). -/
def reminder_thresholds : List Nat := [30, 10]

/-- Modelled from the spec: the thresholds a single raid fires on a tick at
time `now`, given the current Fired set (§4.3 steps 1–3): the raid must not
be expired (`now < startTime`), the pair must not be Fired yet, and
`remaining` must fall in the window `(t*60 - P, t*60]`. -/
def due_thresholds (P : Nat) (now : Int) (fired : List (Nat × Nat))
    (r : SRaid) : List (Nat × Nat) :=
  if now < r.start_time then
    (reminder_thresholds.filter (fun t =>
      !fired.contains (r.id, t) &&
      decide (r.start_time - now ≤ (t * 60 : Int)) &&
      decide ((t * 60 : Int) - P < r.start_time - now))).map (fun t => (r.id, t))
  else []

/-- Modelled from the spec: one evaluation tick (§4.3): collect every due
`(raidId, threshold)` pair and mark them all Fired. -/
def sched_tick (P : Nat) (raids : List SRaid) (now : Int)
    (fired : List (Nat × Nat)) : List (Nat × Nat) × List (Nat × Nat) :=
  let fires := raids.flatMap (due_thresholds P now fired)
  (fires, fired ++ fires)

/-- Modelled from the spec: run the scheduler over a sequence of tick times,
logging each fired `(tick time, raidId, threshold)` event. -/
def sched_run (P : Nat) (raids : List SRaid) :
    List Int → List (Nat × Nat) → List (Int × Nat × Nat)
  | [], _ => []
  | now :: rest, fired =>
      let step := sched_tick P raids now fired
      step.1.map (fun pr => (now, pr)) ++ sched_run P raids rest step.2

/-- A sequence of join commands `(tg_id, raid_id)` processed one after the
other, each against the store the previous one committed (the sequential
executions of `cmd_join_logic` the transport layer performs). -/
def apply_joins (db : DB) (ops : List (Int × Nat)) : DB :=
  ops.foldl (fun d op => (cmd_join_logic op.1 op.2 d).2) db

/-- Demonstration store for the join race: users `tg_id = 1` and `tg_id = 2`
registered, one raid (id 1, 1 slot, starts at `t = 3600`) with no
participants — exactly one slot remains. -/
def race_db : DB :=
  (cmd_create_raid_logic 1 "Boss" 3600 1
    (ensure_user (ensure_user DB.empty 1 none).2 2 none).2).2

/-- The registered user row with `tg_id = 1` in `race_db`. -/
def race_userA : User :=
  { id := 1, tg_id := 1, nick := none, uid := none, crystals := 0, last_daily := none }

/-- The registered user row with `tg_id = 2` in `race_db`. -/
def race_userB : User :=
  { id := 2, tg_id := 2, nick := none, uid := none, crystals := 0, last_daily := none }


/-! Helper lemmas about the store operations. -/

theorem ensure_user_raids (db : DB) (tg : Int) (nick : Option String) :
    (ensure_user db tg nick).2.raids = db.raids := by
  unfold ensure_user
  cases h : get_user_by_tg db tg <;> simp [h]

theorem ensure_user_participants (db : DB) (tg : Int) (nick : Option String) :
    (ensure_user db tg nick).2.participants = db.participants := by
  unfold ensure_user
  cases h : get_user_by_tg db tg <;> simp [h]

theorem ensure_user_next_raid_id (db : DB) (tg : Int) (nick : Option String) :
    (ensure_user db tg nick).2.next_raid_id = db.next_raid_id := by
  unfold ensure_user
  cases h : get_user_by_tg db tg <;> simp [h]

theorem ensure_user_tg_id (db : DB) (tg : Int) (nick : Option String) :
    (ensure_user db tg nick).1.tg_id = tg := by
  unfold ensure_user
  cases h : get_user_by_tg db tg with
  | none => simp [h]
  | some u =>
      have := List.find?_some h
      simp [h]
      exact eq_of_beq this

theorem get_user_ensure_user (db : DB) (tg : Int) (nick : Option String) :
    get_user_by_tg (ensure_user db tg nick).2 tg = some (ensure_user db tg nick).1 := by
  unfold ensure_user
  cases h : get_user_by_tg db tg with
  | some u => simp [h]
  | none =>
      simp only [h]
      unfold get_user_by_tg at h ⊢
      simp [List.find?_append, h]

theorem get_user_update_user (db : DB) (tg : Int) (u : User) (f : User → User)
    (hf : ∀ v, (f v).tg_id = v.tg_id)
    (h : get_user_by_tg db tg = some u) :
    get_user_by_tg (update_user db u.id f) tg = some (f u) := by
  unfold get_user_by_tg at h
  unfold get_user_by_tg update_user
  simp only
  rw [List.find?_map]
  have hp : ((fun v : User => v.tg_id == tg) ∘
      (fun v : User => if v.id == u.id then f v else v)) =
      (fun v : User => v.tg_id == tg) := by
    funext v
    by_cases hv : v.id = u.id <;> simp [hv, hf]
  rw [hp, h]
  simp

theorem ensure_user_found (db : DB) (tg : Int) (nick : Option String) (u : User)
    (hu : get_user_by_tg db tg = some u) :
    ensure_user db tg nick = (u, db) := by
  unfold ensure_user
  rw [hu]

theorem cmd_daily_denied_eq (tg now : Int) (db : DB) (l : Int)
    (hl : (ensure_user db tg none).1.last_daily = some l)
    (hlt : now - l < 86400) :
    cmd_daily_logic tg now db =
      (DailyRes.denied (86400 - (now - l)), (ensure_user db tg none).2) := by
  simp only [cmd_daily_logic]
  rw [hl]
  simp [hlt]

theorem cmd_daily_grant_eq (tg now : Int) (db : DB)
    (h : (ensure_user db tg none).1.last_daily = none ∨
         ∃ l, (ensure_user db tg none).1.last_daily = some l ∧ 86400 ≤ now - l) :
    cmd_daily_logic tg now db =
      (DailyRes.granted ((ensure_user db tg none).1.crystals + 50),
       update_user (ensure_user db tg none).2 (ensure_user db tg none).1.id
         (fun u => { u with crystals := u.crystals + 50, last_daily := some now })) := by
  simp only [cmd_daily_logic]
  rcases h with h | ⟨l, hl, hge⟩
  · rw [h]
  · rw [hl]
    simp [show ¬ (now - l < 86400) from by omega]

/-! Claim theorems. -/

/-- Claim C3: for a user whose `last_daily` is set to `l`, a `/daily` call at any
`now` with `now - l < 24h` returns `Denied` carrying exactly
`24h - (now - l)` seconds remaining, and leaves the store (balance and
`last_daily` included) completely unchanged. -/
theorem daily_denied_spec (tg now : Int) (db : DB) (u : User) (l : Int)
    (hu : get_user_by_tg db tg = some u) (hl : u.last_daily = some l)
    (hlt : now - l < 86400) :
    cmd_daily_logic tg now db = (DailyRes.denied (86400 - (now - l)), db) := by
  have he := ensure_user_found db tg none u hu
  have h1 : (ensure_user db tg none).1.last_daily = some l := by rw [he]; exact hl
  rw [cmd_daily_denied_eq tg now db l h1 hlt, he]

/-- Witness for `daily_denied_spec`: a user granted at `t = 1000` is denied
at `t = 1500` with `86400 - 500` seconds remaining and an unchanged store. -/
theorem daily_denied_witness :
    cmd_daily_logic 7 1500 (cmd_daily_logic 7 1000 DB.empty).2 =
      (DailyRes.denied (86400 - (1500 - 1000)), (cmd_daily_logic 7 1000 DB.empty).2) :=
  daily_denied_spec 7 1500 (cmd_daily_logic 7 1000 DB.empty).2
    { id := 1, tg_id := 7, nick := none, uid := none, crystals := 50,
      last_daily := some 1000 }
    1000 (by decide) rfl (by decide)

/-- Claim C2: `/daily` grants exactly when the (lazily created) user's
`last_daily` is unset or at least 24h old — the 24h boundary itself grants;
a grant returns the old balance plus exactly 50 and rewrites the user row
with the new balance and `last_daily = now`; and two grants exactly 24h
apart starting from a fresh store yield the balances 50 and then 100. -/
theorem daily_grant_spec (tg now : Int) (db : DB) :
    ((∃ b, (cmd_daily_logic tg now db).1 = DailyRes.granted b) ↔
      ((ensure_user db tg none).1.last_daily = none ∨
        ∃ l, (ensure_user db tg none).1.last_daily = some l ∧ 86400 ≤ now - l))
    ∧ (((ensure_user db tg none).1.last_daily = none ∨
        ∃ l, (ensure_user db tg none).1.last_daily = some l ∧ 86400 ≤ now - l) →
      (cmd_daily_logic tg now db).1 =
        DailyRes.granted ((ensure_user db tg none).1.crystals + 50) ∧
      get_user_by_tg (cmd_daily_logic tg now db).2 tg =
        some { (ensure_user db tg none).1 with
                 crystals := (ensure_user db tg none).1.crystals + 50,
                 last_daily := some now })
    ∧ ((cmd_daily_logic 7 now DB.empty).1 = DailyRes.granted 50 ∧
       (cmd_daily_logic 7 (now + 86400) (cmd_daily_logic 7 now DB.empty).2).1 =
         DailyRes.granted 100) := by
  have hpost : get_user_by_tg
      (update_user (ensure_user db tg none).2 (ensure_user db tg none).1.id
        (fun u => { u with crystals := u.crystals + 50, last_daily := some now })) tg =
      some { (ensure_user db tg none).1 with
               crystals := (ensure_user db tg none).1.crystals + 50,
               last_daily := some now } :=
    get_user_update_user _ tg _ _ (fun v => rfl) (get_user_ensure_user db tg none)
  refine ⟨?_, ?_, ?_, ?_⟩
  · cases hld : (ensure_user db tg none).1.last_daily with
    | none =>
        rw [cmd_daily_grant_eq tg now db (Or.inl hld)]
        simp
    | some l =>
        by_cases hlt : now - l < 86400
        · rw [cmd_daily_denied_eq tg now db l hld hlt]
          simp
          omega
        · rw [cmd_daily_grant_eq tg now db (Or.inr ⟨l, hld, by omega⟩)]
          simp
          omega
  · intro hg
    rw [cmd_daily_grant_eq tg now db hg]
    exact ⟨rfl, hpost⟩
  · rw [cmd_daily_grant_eq 7 now DB.empty (Or.inl rfl)]
    rfl
  · have hdb2 : (cmd_daily_logic 7 now DB.empty).2 =
        { users := [{ id := 1, tg_id := 7, nick := none, uid := none,
                      crystals := 50, last_daily := some now }],
          raids := [], participants := [], next_user_id := 2, next_raid_id := 1 } := by
      rw [cmd_daily_grant_eq 7 now DB.empty (Or.inl rfl)]
      simp [update_user, ensure_user, get_user_by_tg, DB.empty]
    rw [hdb2]
    have hu2 : get_user_by_tg
        { users := [{ id := 1, tg_id := 7, nick := none, uid := none,
                      crystals := 50, last_daily := some now }],
          raids := [], participants := [], next_user_id := 2, next_raid_id := 1 } 7 =
        some { id := 1, tg_id := 7, nick := none, uid := none,
               crystals := 50, last_daily := some now } := by
      simp [get_user_by_tg]
    have he2 := ensure_user_found _ 7 none _ hu2
    rw [cmd_daily_grant_eq 7 (now + 86400) _
      (Or.inr ⟨now, by rw [he2], by omega⟩)]
    rw [he2]
    rfl

/-- Witness for `daily_grant_spec`: a fresh user is granted, and the
two-grant scenario holds at `t0 = 0`. -/
theorem daily_grant_witness :
    (cmd_daily_logic 7 1000 DB.empty).1 =
      DailyRes.granted ((ensure_user DB.empty 7 none).1.crystals + 50) ∧
    ((cmd_daily_logic 7 0 DB.empty).1 = DailyRes.granted 50 ∧
     (cmd_daily_logic 7 (0 + 86400) (cmd_daily_logic 7 0 DB.empty).2).1 =
       DailyRes.granted 100) :=
  ⟨((daily_grant_spec 7 1000 DB.empty).2.1 (Or.inl rfl)).1,
   (daily_grant_spec 7 0 DB.empty).2.2⟩

theorem cmd_join_eq_notfound (tg : Int) (rid : Nat) (db : DB)
    (hf : db.raids.find? (fun r => r.id == rid) = none) :
    cmd_join_logic tg rid db = (JoinRes.notFound, db) := by
  simp only [cmd_join_logic]
  rw [hf]

theorem cmd_join_eq_user_found (tg : Int) (rid : Nat) (db : DB) (raid : Raid)
    (u : User)
    (hf : db.raids.find? (fun r => r.id == rid) = some raid)
    (hu : get_user_by_tg db tg = some u) :
    cmd_join_logic tg rid db =
      (if raid.slots ≤ (countParticipants db raid.id : Int) then
        (JoinRes.full, db)
      else if participantExists db raid.id u.id then
        (JoinRes.alreadyJoined, db)
      else
        (JoinRes.joined,
         { db with participants :=
             db.participants ++ [{ raid_id := raid.id, user_id := u.id }] })) := by
  simp only [cmd_join_logic]
  rw [hf, ensure_user_found db tg none u hu]

/-- Claim C4 counterexample: a user creates a 1-slot raid, joins it (`joined`),
and retries the same join: the retry returns `full`, not `alreadyJoined`,
because the source checks capacity before checking for a duplicate. -/
theorem join_retry_full_counterexample :
    (cmd_join_logic 1 1 (cmd_create_raid_logic 1 "Boss" 0 1 DB.empty).2).1 =
      JoinRes.joined ∧
    (cmd_join_logic 1 1
      (cmd_join_logic 1 1 (cmd_create_raid_logic 1 "Boss" 0 1 DB.empty).2).2).1 =
      JoinRes.full ∧
    (cmd_join_logic 1 1
      (cmd_join_logic 1 1 (cmd_create_raid_logic 1 "Boss" 0 1 DB.empty).2).2).1 ≠
      JoinRes.alreadyJoined := by
  refine ⟨by decide, by decide, by decide⟩

/-- Claim C4 (amended): a retry join by an already-participating registered user
returns `alreadyJoined` only while the participant count is still below
capacity; once the raid is full the retry returns `full` (the capacity check
precedes the duplicate check).  In both cases the store is unchanged — no
second Participation row — and the retry never returns `joined`. -/
theorem join_duplicate_spec (tg : Int) (rid : Nat) (db : DB) (raid : Raid)
    (u : User)
    (hf : db.raids.find? (fun r => r.id == rid) = some raid)
    (hu : get_user_by_tg db tg = some u)
    (hex : participantExists db raid.id u.id = true) :
    (cmd_join_logic tg rid db).2 = db ∧
    ((countParticipants db raid.id : Int) < raid.slots →
      (cmd_join_logic tg rid db).1 = JoinRes.alreadyJoined) ∧
    (raid.slots ≤ (countParticipants db raid.id : Int) →
      (cmd_join_logic tg rid db).1 = JoinRes.full) ∧
    (cmd_join_logic tg rid db).1 ≠ JoinRes.joined := by
  rw [cmd_join_eq_user_found tg rid db raid u hf hu]
  by_cases hslots : raid.slots ≤ (countParticipants db raid.id : Int)
  · rw [if_pos hslots]
    exact ⟨rfl, fun hlt => absurd hslots (by omega), fun _ => rfl, by simp⟩
  · rw [if_neg hslots, if_pos hex]
    exact ⟨rfl, fun _ => rfl, fun hle => absurd hle hslots, by simp⟩

/-- Witness for `join_duplicate_spec`: in a 2-slot raid the retry returns
`alreadyJoined` and leaves the store unchanged. -/
theorem join_duplicate_witness :
    (cmd_join_logic 1 1
      (cmd_join_logic 1 1 (cmd_create_raid_logic 1 "Boss" 0 2 DB.empty).2).2).2 =
      (cmd_join_logic 1 1 (cmd_create_raid_logic 1 "Boss" 0 2 DB.empty).2).2 ∧
    (cmd_join_logic 1 1
      (cmd_join_logic 1 1 (cmd_create_raid_logic 1 "Boss" 0 2 DB.empty).2).2).1 =
      JoinRes.alreadyJoined := by
  have h := join_duplicate_spec 1 1
    (cmd_join_logic 1 1 (cmd_create_raid_logic 1 "Boss" 0 2 DB.empty).2).2
    { id := 1, boss := "Boss", start_time := 0, slots := 2, creator_id := 1 }
    { id := 1, tg_id := 1, nick := none, uid := none, crystals := 0,
      last_daily := none }
    (by decide) (by decide) (by decide)
  exact ⟨h.1, h.2.1 (by decide)⟩

/-- Claim C5 counterexample: `cmd_create_raid_logic` called with an empty boss
name and zero slots creates the raid anyway and returns its id — there is
no validation and no error return at all. -/
theorem create_raid_accepts_invalid :
    (cmd_create_raid_logic 1 "" 0 0 DB.empty).1 = 1 ∧
    (cmd_create_raid_logic 1 "" 0 0 DB.empty).2.raids =
      [{ id := 1, boss := "", start_time := 0, slots := 0, creator_id := 1 }] :=
  ⟨rfl, rfl⟩

/-- Claim C5 (amended): `cmd_create_raid_logic` performs no validation: for every
boss name (empty included), every slots value (non-positive included) and
every start time (past included) it appends exactly one raid with exactly
those fields and answers with its id; an unparsable date/time never reaches
it because the transport layer's `datetime.fromisoformat` fails first. -/
theorem create_raid_always_creates (tg : Int) (boss : String) (dt slots : Int)
    (db : DB) :
    (cmd_create_raid_logic tg boss dt slots db).1 = db.next_raid_id ∧
    (cmd_create_raid_logic tg boss dt slots db).2.raids =
      db.raids ++
        [{ id := db.next_raid_id, boss := boss, start_time := dt, slots := slots,
           creator_id := (ensure_user db tg none).1.id }] := by
  constructor
  · exact ensure_user_next_raid_id db tg none
  · simp only [cmd_create_raid_logic]
    rw [ensure_user_raids, ensure_user_next_raid_id]

/-- Claim C9 counterexample: with no upstream configured (`enka` not installed),
an empty uid yields `none` (Unavailable), not the synthetic placeholder. -/
theorem fetch_profile_empty_uid :
    fetch_enka_profile_sync
      { has_enka := false, loop_running := false, showcase := none } "" = none ∧
    fetch_enka_profile_sync
      { has_enka := false, loop_running := false, showcase := none } "" ≠
      some (mock_profile "") :=
  ⟨rfl, by decide⟩

/-- Claim C9 (amended): `fetch_enka_profile_sync` is a total function — upstream
failures are values, never exceptions: when `enka` is installed it returns
`none` both when an event loop is already running and when the async fetch
fails; and for every nonempty uid with `enka` not installed it returns the
synthetic placeholder, clearly marked by its `notes` field (an empty uid
returns `none` instead). -/
theorem fetch_profile_spec (env : EnkaEnv) (uid : String) :
    (env.has_enka = true → env.loop_running = true →
      fetch_enka_profile_sync env uid = none) ∧
    (env.has_enka = true → env.showcase = none →
      fetch_enka_profile_sync env uid = none) ∧
    (uid ≠ "" → env.has_enka = false →
      fetch_enka_profile_sync env uid = some (mock_profile uid) ∧
      (mock_profile uid).notes = some "enka not installed") := by
  refine ⟨?_, ?_, ?_⟩
  · intro h1 h2
    simp [fetch_enka_profile_sync, h1, h2]
  · intro h1 h2
    simp [fetch_enka_profile_sync, h1, h2]
  · intro h1 h2
    simp [fetch_enka_profile_sync, h1, h2, mock_profile]

/-- Witness for `fetch_profile_spec`: a loop-running failure yields `none`,
and an unconfigured fetch for uid "123" yields the marked mock profile. -/
theorem fetch_profile_witness :
    fetch_enka_profile_sync
      { has_enka := true, loop_running := true, showcase := none } "123" = none ∧
    fetch_enka_profile_sync
      { has_enka := false, loop_running := false, showcase := none } "123" =
      some (mock_profile "123") :=
  ⟨(fetch_profile_spec { has_enka := true, loop_running := true, showcase := none }
      "123").1 rfl rfl,
   ((fetch_profile_spec { has_enka := false, loop_running := false, showcase := none }
      "123").2.2 (by decide) rfl).1⟩

/-- Claim C10: the owner gate of `/export_raids` is active only when
`OWNER_TG_ID` is nonzero: with owner id 0 every caller receives the full
report; with a nonzero owner id every non-owner caller receives the refusal
message; and in every case the store is returned unchanged (the handler
only reads). -/
theorem export_owner_gate (owner tg : Int) (db : DB) :
    (owner = 0 →
      cmd_export_raids_logic owner tg db = (export_report db, db)) ∧
    (owner ≠ 0 → tg ≠ owner →
      cmd_export_raids_logic owner tg db = (owner_only_message, db)) ∧
    (cmd_export_raids_logic owner tg db).2 = db := by
  refine ⟨?_, ?_, ?_⟩
  · intro h
    simp [cmd_export_raids_logic, h]
  · intro h1 h2
    simp [cmd_export_raids_logic, h1, h2]
  · unfold cmd_export_raids_logic
    split <;> rfl

/-- Witness for `export_owner_gate`: with owner id 0 a caller gets the
report; with owner id 7 a different caller gets the refusal. -/
theorem export_owner_gate_witness :
    cmd_export_raids_logic 0 5 DB.empty = (export_report DB.empty, DB.empty) ∧
    cmd_export_raids_logic 7 5 DB.empty = (owner_only_message, DB.empty) :=
  ⟨(export_owner_gate 0 5 DB.empty).1 rfl,
   (export_owner_gate 7 5 DB.empty).2.1 (by decide) (by decide)⟩

theorem countParticipants_ensure (db : DB) (tg : Int) (nick : Option String)
    (rid : Nat) :
    countParticipants (ensure_user db tg nick).2 rid = countParticipants db rid := by
  unfold countParticipants
  rw [ensure_user_participants]

theorem participantExists_ensure (db : DB) (tg : Int) (nick : Option String)
    (rid uid : Nat) :
    participantExists (ensure_user db tg nick).2 rid uid =
      participantExists db rid uid := by
  unfold participantExists
  rw [ensure_user_participants]

theorem cmd_join_eq_found (tg : Int) (rid : Nat) (db : DB) (raid : Raid)
    (hf : db.raids.find? (fun r => r.id == rid) = some raid) :
    cmd_join_logic tg rid db =
      (if raid.slots ≤ (countParticipants (ensure_user db tg none).2 raid.id : Int) then
        (JoinRes.full, (ensure_user db tg none).2)
      else if participantExists (ensure_user db tg none).2 raid.id
          (ensure_user db tg none).1.id then
        (JoinRes.alreadyJoined, (ensure_user db tg none).2)
      else
        (JoinRes.joined,
         { (ensure_user db tg none).2 with participants :=
             (ensure_user db tg none).2.participants ++
               [{ raid_id := raid.id, user_id := (ensure_user db tg none).1.id }] })) := by
  simp only [cmd_join_logic]
  rw [hf]

/-- Claim C6: `cmd_join_logic` answers `notFound` exactly when no raid with the
given id exists, storing nothing in that case; and when the raid exists,
the count is below capacity and the pair is absent, it inserts exactly one
Participation row for the (lazily created) user and answers `joined`. -/
theorem join_notfound_spec (tg : Int) (rid : Nat) (db : DB) :
    ((db.raids.find? (fun r => r.id == rid) = none ↔
      (cmd_join_logic tg rid db).1 = JoinRes.notFound)) ∧
    (db.raids.find? (fun r => r.id == rid) = none →
      (cmd_join_logic tg rid db).2 = db) ∧
    (∀ raid, db.raids.find? (fun r => r.id == rid) = some raid →
      (countParticipants db raid.id : Int) < raid.slots →
      participantExists db raid.id (ensure_user db tg none).1.id = false →
      (cmd_join_logic tg rid db).1 = JoinRes.joined ∧
      (cmd_join_logic tg rid db).2.participants =
        db.participants ++
          [{ raid_id := raid.id, user_id := (ensure_user db tg none).1.id }]) := by
  refine ⟨⟨?_, ?_⟩, ?_, ?_⟩
  · intro h
    rw [cmd_join_eq_notfound tg rid db h]
  · intro h
    cases hf : db.raids.find? (fun r => r.id == rid) with
    | none => rfl
    | some raid =>
        rw [cmd_join_eq_found tg rid db raid hf] at h
        by_cases h1 : raid.slots ≤
            (countParticipants (ensure_user db tg none).2 raid.id : Int)
        · rw [if_pos h1] at h
          cases h
        · rw [if_neg h1] at h
          by_cases h2 : participantExists (ensure_user db tg none).2 raid.id
              (ensure_user db tg none).1.id = true
          · rw [if_pos h2] at h
            cases h
          · rw [if_neg h2] at h
            cases h
  · intro h
    rw [cmd_join_eq_notfound tg rid db h]
  · intro raid hf hlt hnex
    rw [cmd_join_eq_found tg rid db raid hf]
    rw [if_neg (by rw [countParticipants_ensure]; omega)]
    rw [if_neg (by rw [participantExists_ensure, hnex]; simp)]
    exact ⟨rfl, by simp [ensure_user_participants]⟩

/-- Witness for `join_notfound_spec`: joining a never-created raid id on an
empty store answers `notFound`, and a valid join answers `joined`. -/
theorem join_notfound_witness :
    (cmd_join_logic 5 999 DB.empty).1 = JoinRes.notFound ∧
    (cmd_join_logic 1 1 (cmd_create_raid_logic 1 "Boss" 0 2 DB.empty).2).1 =
      JoinRes.joined :=
  ⟨(join_notfound_spec 5 999 DB.empty).1.1 rfl,
   ((join_notfound_spec 1 1 (cmd_create_raid_logic 1 "Boss" 0 2 DB.empty).2).2.2
      { id := 1, boss := "Boss", start_time := 0, slots := 2, creator_id := 1 }
      (by decide) (by decide) (by decide)).1⟩

theorem countParticipants_insert (db : DB) (pr : RaidParticipant) (rid : Nat) :
    countParticipants { db with participants := db.participants ++ [pr] } rid =
      countParticipants db rid + (if pr.raid_id == rid then 1 else 0) := by
  simp only [countParticipants, List.filter_append, List.length_append]
  congr 1
  cases h : pr.raid_id == rid <;> simp [List.filter_cons, h]

theorem join_preserves_capacity (tg : Int) (rid : Nat) (db : DB)
    (hnd : (db.raids.map Raid.id).Nodup)
    (hinv : ∀ r ∈ db.raids, (countParticipants db r.id : Int) ≤ r.slots) :
    (cmd_join_logic tg rid db).2.raids = db.raids ∧
    ∀ r ∈ (cmd_join_logic tg rid db).2.raids,
      (countParticipants (cmd_join_logic tg rid db).2 r.id : Int) ≤ r.slots := by
  cases hf : db.raids.find? (fun r => r.id == rid) with
  | none =>
      rw [cmd_join_eq_notfound tg rid db hf]
      exact ⟨rfl, hinv⟩
  | some raid =>
      rw [cmd_join_eq_found tg rid db raid hf]
      by_cases h1 : raid.slots ≤
          (countParticipants (ensure_user db tg none).2 raid.id : Int)
      · rw [if_pos h1]
        refine ⟨ensure_user_raids db tg none, ?_⟩
        intro r hr
        rw [countParticipants_ensure]
        exact hinv r (by rwa [ensure_user_raids db tg none] at hr)
      · rw [if_neg h1]
        by_cases h2 : participantExists (ensure_user db tg none).2 raid.id
            (ensure_user db tg none).1.id = true
        · rw [if_pos h2]
          refine ⟨ensure_user_raids db tg none, ?_⟩
          intro r hr
          rw [countParticipants_ensure]
          exact hinv r (by rwa [ensure_user_raids db tg none] at hr)
        · rw [if_neg h2]
          refine ⟨by simp [ensure_user_raids db tg none], ?_⟩
          intro r hr
          have hr' : r ∈ db.raids := by
            rw [show ({ (ensure_user db tg none).2 with participants :=
                (ensure_user db tg none).2.participants ++
                  [{ raid_id := raid.id,
                     user_id := (ensure_user db tg none).1.id }] } : DB).raids =
              (ensure_user db tg none).2.raids from rfl,
              ensure_user_raids db tg none] at hr
            exact hr
          rw [countParticipants_insert, countParticipants_ensure]
          rw [countParticipants_ensure] at h1
          by_cases hid : raid.id = r.id
          · have hmem : raid ∈ db.raids := List.mem_of_find?_eq_some hf
            have hreq : raid = r :=
              List.inj_on_of_nodup_map hnd hmem hr' hid
            subst hreq
            simp only [hid]
            rw [if_pos (by simp [hid])]
            push_cast
            omega
          · rw [if_neg (by simp [hid])]
            simpa using hinv r hr'

theorem apply_joins_capacity (ops : List (Int × Nat)) :
    ∀ (db : DB), (db.raids.map Raid.id).Nodup →
    (∀ r ∈ db.raids, (countParticipants db r.id : Int) ≤ r.slots) →
    (apply_joins db ops).raids = db.raids ∧
    ∀ r ∈ (apply_joins db ops).raids,
      (countParticipants (apply_joins db ops) r.id : Int) ≤ r.slots := by
  induction ops with
  | nil =>
      intro db hnd hinv
      exact ⟨rfl, hinv⟩
  | cons op rest ih =>
      intro db hnd hinv
      have hstep := join_preserves_capacity op.1 op.2 db hnd hinv
      have heq : apply_joins db (op :: rest) =
          apply_joins (cmd_join_logic op.1 op.2 db).2 rest := rfl
      rw [heq]
      have hnd' : ((cmd_join_logic op.1 op.2 db).2.raids.map Raid.id).Nodup := by
        rw [hstep.1]; exact hnd
      obtain ⟨h1, h2⟩ := ih (cmd_join_logic op.1 op.2 db).2 hnd' hstep.2
      exact ⟨by rw [h1, hstep.1], h2⟩

/-- Claim C1: starting from any store whose raid ids are distinct and in which
every raid's participant count is within its capacity, any sequence of join
commands preserves `count ≤ slots` for every raid; and any single join
against a raid already at (or beyond) capacity answers `full` and inserts
nothing. -/
theorem join_capacity_invariant (db : DB) (ops : List (Int × Nat))
    (hnd : (db.raids.map Raid.id).Nodup)
    (hinv : ∀ r ∈ db.raids, (countParticipants db r.id : Int) ≤ r.slots) :
    (∀ r ∈ (apply_joins db ops).raids,
      (countParticipants (apply_joins db ops) r.id : Int) ≤ r.slots) ∧
    (∀ (tg : Int) (rid : Nat) (raid : Raid),
      db.raids.find? (fun r => r.id == rid) = some raid →
      raid.slots ≤ (countParticipants db raid.id : Int) →
      (cmd_join_logic tg rid db).1 = JoinRes.full ∧
      (cmd_join_logic tg rid db).2.participants = db.participants) := by
  constructor
  · exact (apply_joins_capacity ops db hnd hinv).2
  · intro tg rid raid hf hge
    rw [cmd_join_eq_found tg rid db raid hf]
    rw [if_pos (by rw [countParticipants_ensure]; exact hge)]
    exact ⟨rfl, ensure_user_participants db tg none⟩

/-- Witness for `join_capacity_invariant`: a second user joining a full
1-slot raid receives `full` and the participant table is untouched. -/
theorem join_capacity_witness :
    (cmd_join_logic 2 1
      (cmd_join_logic 1 1 (cmd_create_raid_logic 1 "Boss" 0 1 DB.empty).2).2).1 =
      JoinRes.full ∧
    (cmd_join_logic 2 1
      (cmd_join_logic 1 1 (cmd_create_raid_logic 1 "Boss" 0 1 DB.empty).2).2).2.participants =
      (cmd_join_logic 1 1 (cmd_create_raid_logic 1 "Boss" 0 1 DB.empty).2).2.participants :=
  (join_capacity_invariant
    (cmd_join_logic 1 1 (cmd_create_raid_logic 1 "Boss" 0 1 DB.empty).2).2 []
    (by decide) (by decide)).2 2 1
    { id := 1, boss := "Boss", start_time := 0, slots := 1, creator_id := 1 }
    (by decide) (by decide)

/-- For a registered user, `cmd_join_logic` is literally its read phase
(`join_check`) followed immediately by its write phase (`join_apply`) on the
same store — there is no transaction or lock tying the two together, which
is what lets the phases of two concurrent calls interleave. -/
theorem cmd_join_as_two_phases (tg : Int) (rid : Nat) (db : DB) (u : User)
    (hu : get_user_by_tg db tg = some u) :
    cmd_join_logic tg rid db = join_apply (join_check u rid db) db := by
  cases hf : db.raids.find? (fun r => r.id == rid) with
  | none =>
      rw [cmd_join_eq_notfound tg rid db hf]
      simp [join_check, join_apply, hf]
  | some raid =>
      rw [cmd_join_eq_user_found tg rid db raid u hf hu]
      by_cases h1 : raid.slots ≤ (countParticipants db raid.id : Int)
      · simp [join_check, join_apply, hf, h1]
      · by_cases h2 : participantExists db raid.id u.id = true
        · simp [join_check, join_apply, hf, h1, h2]
        · simp [join_check, join_apply, hf, h1, h2]

/-- Claim C7: the capacity check and the insert are not an atomic unit.  In
`race_db` both users are registered, the raid has 1 slot and 0 participants
(exactly one slot remains); under the interleaving in which both calls run
their read phase before either commits, both calls answer `joined` and the
committed store holds 2 participations in the 1-slot raid — not one
`joined` and one `full` as the claim requires. -/
theorem join_race_two_joined :
    race_db.raids =
      [{ id := 1, boss := "Boss", start_time := 3600, slots := 1, creator_id := 1 }] ∧
    get_user_by_tg race_db 1 = some race_userA ∧
    get_user_by_tg race_db 2 = some race_userB ∧
    countParticipants race_db 1 = 0 ∧
    (race_join race_userA race_userB 1 race_db).1 = JoinRes.joined ∧
    (race_join race_userA race_userB 1 race_db).2.1 = JoinRes.joined ∧
    countParticipants (race_join race_userA race_userB 1 race_db).2.2 1 = 2 :=
  ⟨by decide, by decide, by decide, by decide, by decide, by decide, by decide⟩

theorem contains_eq_false_iff {α : Type} [BEq α] [LawfulBEq α] (l : List α)
    (x : α) : l.contains x = false ↔ ¬ x ∈ l := by
  simp

theorem countP_le_one_of_nodup {α : Type} (p : α → Bool) (l : List α)
    (hnd : l.Nodup) (hp : ∀ a b, p a = true → p b = true → a = b) :
    l.countP p ≤ 1 := by
  induction l with
  | nil => simp
  | cons a as ih =>
      rcases List.nodup_cons.mp hnd with ⟨ha, has⟩
      rw [List.countP_cons]
      by_cases hpa : p a = true
      · have hz : as.countP p = 0 := by
          refine List.countP_eq_zero.mpr ?_
          intro b hb hpb
          exact ha (hp a b hpa hpb ▸ hb)
        simp [hpa, hz]
      · simp only [hpa]
        simpa using ih has

theorem mem_due_thresholds {P : Nat} {now : Int} {fired : List (Nat × Nat)}
    {r : SRaid} {pr : Nat × Nat} (h : pr ∈ due_thresholds P now fired r) :
    pr.1 = r.id ∧ now < r.start_time ∧ fired.contains pr = false ∧
      pr.2 ∈ reminder_thresholds := by
  unfold due_thresholds at h
  by_cases hlt : now < r.start_time
  · rw [if_pos hlt] at h
    simp only [List.mem_map, List.mem_filter] at h
    obtain ⟨t, ⟨ht, hcond⟩, rfl⟩ := h
    simp only [Bool.and_eq_true, Bool.not_eq_true'] at hcond
    exact ⟨rfl, hlt, hcond.1.1, ht⟩
  · rw [if_neg hlt] at h
    simp at h

theorem due_thresholds_nodup (P : Nat) (now : Int) (fired : List (Nat × Nat))
    (r : SRaid) : (due_thresholds P now fired r).Nodup := by
  unfold due_thresholds
  split
  · refine List.Nodup.map ?_ (List.Nodup.filter _ (by decide))
    intro a b hab
    simpa using hab
  · exact List.nodup_nil

theorem tick_fires_nodup (P : Nat) (raids : List SRaid) (now : Int)
    (fired : List (Nat × Nat)) (hnd : (raids.map SRaid.id).Nodup) :
    (sched_tick P raids now fired).1.Nodup := by
  have hpw : raids.Pairwise (fun a b => a.id ≠ b.id) := List.pairwise_map.mp hnd
  unfold sched_tick
  simp only
  rw [List.nodup_flatMap]
  refine ⟨fun r _ => due_thresholds_nodup P now fired r, ?_⟩
  refine hpw.imp ?_
  intro a b hab x hxa hxb
  have h1 := (mem_due_thresholds hxa).1
  have h2 := (mem_due_thresholds hxb).1
  exact hab (by rw [← h1, h2])

theorem mem_tick_fires {P : Nat} {raids : List SRaid} {now : Int}
    {fired : List (Nat × Nat)} {pr : Nat × Nat}
    (h : pr ∈ (sched_tick P raids now fired).1) :
    fired.contains pr = false ∧
      ∃ r ∈ raids, pr.1 = r.id ∧ now < r.start_time ∧
        pr.2 ∈ reminder_thresholds := by
  unfold sched_tick at h
  simp only [List.mem_flatMap] at h
  obtain ⟨r, hr, hm⟩ := h
  obtain ⟨h1, h2, h3, h4⟩ := mem_due_thresholds hm
  exact ⟨h3, r, hr, h1, h2, h4⟩

theorem sched_run_spec (P : Nat) (raids : List SRaid)
    (hnd : (raids.map SRaid.id).Nodup) :
    ∀ (nows : List Int) (fired : List (Nat × Nat)),
      ((sched_run P raids nows fired).map (fun e => e.2)).Nodup ∧
      ∀ e ∈ sched_run P raids nows fired,
        fired.contains e.2 = false ∧
        ∃ r ∈ raids, e.2.1 = r.id ∧ e.1 < r.start_time ∧
          e.2.2 ∈ reminder_thresholds := by
  intro nows
  induction nows with
  | nil =>
      intro fired
      simp [sched_run]
  | cons now rest ih =>
      intro fired
      have hrun : sched_run P raids (now :: rest) fired =
          (sched_tick P raids now fired).1.map (fun pr => (now, pr)) ++
            sched_run P raids rest
              (fired ++ (sched_tick P raids now fired).1) := rfl
      obtain ⟨ihn, ihm⟩ := ih (fired ++ (sched_tick P raids now fired).1)
      constructor
      · rw [hrun, List.map_append, List.nodup_append]
        refine ⟨?_, ihn, ?_⟩
        · simpa using tick_fires_nodup P raids now fired hnd
        · intro x hx1 hx2
          rw [List.map_map] at hx1
          have hx1' : x ∈ (sched_tick P raids now fired).1 := by
            simpa using hx1
          obtain ⟨e, he, rfl⟩ := List.mem_map.mp hx2
          have hc := (ihm e he).1
          rw [contains_eq_false_iff] at hc
          exact hc (List.mem_append.mpr (Or.inr hx1'))
      · intro e he
        rw [hrun] at he
        rcases List.mem_append.mp he with he1 | he2
        · obtain ⟨pr, hpr, rfl⟩ := List.mem_map.mp he1
          obtain ⟨hc, r, hr, h1, h2, h3⟩ := mem_tick_fires hpr
          exact ⟨hc, r, hr, h1, h2, h3⟩
        · obtain ⟨hc, hrest⟩ := ihm e he2
          refine ⟨?_, hrest⟩
          rw [contains_eq_false_iff] at hc ⊢
          intro hm
          exact hc (List.mem_append.mpr (Or.inl hm))

/-- Claim C8 (spec-modelled): running the scheduler from a fresh Fired set over
any sequence of evaluation ticks, every `(raidId, threshold)` pair appears
at most once in the fired-event log; every fired event belongs to a raid of
the store, fires strictly before that raid's start time (never after it has
passed), and uses a threshold from the configured set `{30, 10}`. -/
theorem reminder_at_most_once (P : Nat) (raids : List SRaid) (nows : List Int)
    (pr : Nat × Nat) (hnd : (raids.map SRaid.id).Nodup) :
    (sched_run P raids nows []).countP (fun e => e.2 == pr) ≤ 1 ∧
    ∀ e ∈ sched_run P raids nows [],
      (∃ r ∈ raids, e.2.1 = r.id ∧ e.1 < r.start_time) ∧
      e.2.2 ∈ reminder_thresholds := by
  obtain ⟨hn, hm⟩ := sched_run_spec P raids hnd nows []
  constructor
  · have h2 : ((sched_run P raids nows []).map (fun e => e.2)).countP
        (fun x => x == pr) ≤ 1 := by
      refine countP_le_one_of_nodup _ _ hn ?_
      intro a b ha hb
      have ha' : a = pr := by simpa using ha
      have hb' : b = pr := by simpa using hb
      rw [ha', hb']
    rw [List.countP_map] at h2
    exact h2
  · intro e he
    obtain ⟨_, r, hr, h1, h2, h3⟩ := hm e he
    exact ⟨⟨r, hr, h1, h2⟩, h3⟩

/-- Witness for `reminder_at_most_once`: a raid starting at `t = 1860` with
poll interval 50s, evaluated at ticks 60 and 360, fires the 30-minute
threshold at most once (it does fire at tick 60, where remaining is exactly
1800s). -/
theorem reminder_at_most_once_witness :
    (sched_run 50 [{ id := 1, start_time := 1860 }] [60, 360] []).countP
      (fun e => e.2 == (1, 30)) ≤ 1 :=
  (reminder_at_most_once 50 [{ id := 1, start_time := 1860 }] [60, 360] (1, 30)
    (by decide)).1
